import Mathlib

/-
Verification development for the SCCL deep-clustering repository
(src/models/Transformers.py and src/training.py).  Each Python routine
referenced by the claims is embedded below as a Lean definition; theorems
about the claims follow the definitions.
-/

namespace SCCL

/-! Embedding of `MatrixDECTrainer.find_empty_clusters` (src/training.py,
lines 247-291).  Numeric tensor data is modelled over an arbitrary linearly
ordered commutative ring `α` (in particular ℚ, ℝ or ℤ).  The source computes
`scipy.spatial.distance_matrix` (Euclidean distances); every use of those
distances in `find_empty_clusters` is an order comparison (`np.argmin`,
`min`, `np.argsort`), and the square root is strictly monotone on
nonnegative reals, so the embedding carries squared Euclidean distances,
which induce exactly the same argmin, min ranks and argsort order. -/

variable {α : Type} [LinearOrderedCommRing α]

/-- Squared Euclidean distance between a data point and a center
(the square of the `scipy.spatial.distance_matrix` entry). -/
def dist2 (x c : List α) : α :=
  (List.zipWith (fun a b => (a - b) ^ 2) x c).foldl (fun a b => a + b) 0

/-- Row of the distance matrix for one data point: distances to every center. -/
def distRow (centers : List (List α)) (x : List α) : List α :=
  centers.map (dist2 x)

/-- `np.argmin`: index of the first minimal element of a list (0 on the empty list). -/
def argminIdxAux (l : List α) (i best : Nat) (bv : α) : Nat :=
  match l with
  | [] => best
  | v :: rest =>
    if v < bv then argminIdxAux rest (i + 1) i v else argminIdxAux rest (i + 1) best bv

def argminIdx : List α → Nat
  | [] => 0
  | v :: rest => argminIdxAux rest 1 0 v

/-- Python `min` over a list (0 on the empty list; the source only applies it
to nonempty rows, the empty-row case is guarded separately). -/
def rowMin : List α → α
  | [] => 0
  | v :: rest => rest.foldl min v

/-- `np.bincount(labels, minlength)`: occurrence counts of each label value,
as machine integers (they are mutated below and may go negative). -/
def bincount (labels : List Nat) (minlength : Nat) : List Int :=
  (List.range (max minlength (labels.foldl (fun m v => max m (v + 1)) 0))).map
    (fun k => (labels.countP (fun v => v == k) : Int))

/-- The hard nearest-center assignment of every data point
(`labels[x_i] = np.argmin(dist_matrix[x_i])`).  The source fills the array
while visiting points in a shuffled order; the resulting array does not
depend on that order. -/
def hardLabels (dataset centers : List (List α)) : List Nat :=
  dataset.map (fun x => argminIdx (distRow centers x))

/-- `min_cluster_distances`: appended while visiting points in the shuffled
order `perm1`, so entry `t` holds the distance of point `perm1[t]`,
not of point `t`. -/
def minDistList (dataset centers : List (List α)) (perm1 : List Nat) : List α :=
  perm1.map (fun xi => rowMin (distRow centers (dataset.getD xi [])))

/-- `n_samples_in_cluster = np.bincount(labels, minlength=K)`. -/
def countsOf (dataset centers : List (List α)) : List Int :=
  bincount (hardLabels dataset centers) centers.length

/-- `np.where(np.bincount(labels, minlength=K) == 0)[0]`. -/
def emptyAfterOf (centers : List (List α)) (labels : List Nat) : List Nat :=
  (List.range (bincount labels centers.length).length).filter
    (fun k => (bincount labels centers.length).getD k 0 == 0)

/-- The empty clusters detected from the initial hard assignment. -/
def emptyClustersOf (dataset centers : List (List α)) : List Nat :=
  emptyAfterOf centers (hardLabels dataset centers)

/-- Insertion step for a descending stable sort of indices by key. -/
def insertDesc (key : Nat → α) (i : Nat) : List Nat → List Nat
  | [] => [i]
  | j :: rest => if key j < key i then i :: j :: rest else j :: insertDesc key i rest

/-- `np.argsort(-np.array(l))`: the positions of `l` sorted by descending
value (tie order is unspecified in the source, which uses quicksort; every
concrete input below has pairwise distinct keys). -/
def argsortDesc (l : List α) : List Nat :=
  (List.range l.length).foldr (insertDesc (fun i => l.getD i 0)) []

/-- Mutable state of the repair loop: the center matrix snapshot, the hard
labels, the running per-cluster counts and the shared cursor `i`. -/
structure RepairState (α : Type) where
  centers : List (List α)
  labels : List Nat
  counts : List Int
  i : Nat
deriving DecidableEq

/-- The `while n_samples_in_cluster[labels[points_by_min_cluster_distance[i]]] == 1:
i += 1` loop.  Indexing past the end of `pbm` raises `IndexError`, modelled
as an error result; `fuel` only bounds the recursion and is always supplied
large enough that the error cases coincide with Python's. -/
def advanceCursor (counts : List Int) (labels : List Nat) (pbm : List Nat) :
    Nat → Nat → Except String Nat
  | _, 0 => Except.error "IndexError"
  | i, Nat.succ fuel =>
    match pbm.get? i with
    | none => Except.error "IndexError"
    | some p =>
      if counts.getD (labels.getD p 0) 0 = 1 then
        advanceCursor counts labels pbm (i + 1) fuel
      else Except.ok i

/-- One iteration of `for cluster_idx in empty_cluster_idxs` (lines 275-284).
The source updates `labels[p]` on line 281 and only afterwards, on line 282,
decrements `n_samples_in_cluster[labels[p]]`; the embedding reads the donor
index from the already-updated label array to mirror that line order. -/
def repairStep (dataset : List (List α)) (pbm : List Nat) (cluster_idx : Nat)
    (st : RepairState α) : Except String (RepairState α) :=
  match advanceCursor st.counts st.labels pbm st.i (pbm.length + 1) with
  | Except.error e => Except.error e
  | Except.ok i =>
    let new_cluster_center_point_idx := pbm.getD i 0
    let centers1 := st.centers.set cluster_idx (dataset.getD new_cluster_center_point_idx [])
    let labels1 := st.labels.set new_cluster_center_point_idx cluster_idx
    let donor := labels1.getD (pbm.getD i 0) 0
    let counts1 := st.counts.set donor (st.counts.getD donor 0 - 1)
    let counts2 := counts1.set cluster_idx (counts1.getD cluster_idx 0 + 1)
    Except.ok ⟨centers1, labels1, counts2, i + 1⟩

/-- The whole repair loop over the (shuffled) list of empty clusters. -/
def repairLoop (dataset : List (List α)) (pbm : List Nat) :
    List Nat → RepairState α → Except String (RepairState α)
  | [], st => Except.ok st
  | c :: rest, st =>
    match repairStep dataset pbm c st with
    | Except.error e => Except.error e
    | Except.ok st1 => repairLoop dataset pbm rest st1

/-- Observable outcome of one `find_empty_clusters` call: the value of
`model.cluster_centers` after the call, the final hard labels, whether the
write-back `param.data.copy_` on line 291 executed, and the empty clusters
remaining at the final recount (line 287). -/
structure RepairOutcome (α : Type) where
  centers : List (List α)
  labels : List Nat
  written : Bool
  emptyAfter : List Nat
deriving DecidableEq

/-- `MatrixDECTrainer.find_empty_clusters` (lines 247-291).  `perm1` is the
random visiting order of the points (`np.random.shuffle(index)`), and
`shufEmpty` is the random shuffle applied to `empty_cluster_idxs`
(`random.shuffle`).  With zero centers and a nonempty dataset the source
raises `ValueError` at `min(cluster_distances)`. -/
def find_empty_clusters (dataset centers : List (List α)) (perm1 : List Nat)
    (shufEmpty : List Nat → List Nat) : Except String (RepairOutcome α) :=
  if centers.length = 0 ∧ dataset.length ≠ 0 then
    Except.error "ValueError: min() arg is an empty sequence"
  else if (emptyClustersOf dataset centers).isEmpty then
    Except.ok ⟨centers, hardLabels dataset centers, false, []⟩
  else
    match repairLoop dataset (argsortDesc (minDistList dataset centers perm1))
        (shufEmpty (emptyClustersOf dataset centers))
        ⟨centers, hardLabels dataset centers, countsOf dataset centers, 0⟩ with
    | Except.error e => Except.error e
    | Except.ok st => Except.ok ⟨st.centers, st.labels, true, emptyAfterOf centers st.labels⟩

/-! Embedding of `MatrixSCCLTrainer.construct_batches` (src/training.py,
lines 543-553).  The two calls to `shuffle_tensor` are modelled as explicit
function parameters; theorems assume they permute their input. -/

/-- Splitting of the padded list into `n` consecutive batches of size `B`
(the `for i in range(...)` loop on lines 551-552). -/
def chunksOf {α : Type} (B : Nat) : Nat → List α → List (List α)
  | 0, _ => []
  | Nat.succ n, l => l.take B :: chunksOf B n (l.drop B)

/-- The padding step of `construct_batches` (lines 545-548): when the
length is not a multiple of `batch_size`, a re-shuffled prefix of the
shuffled list is appended (Python slicing silently truncates the prefix
when `suffix_length` exceeds the list length). -/
def paddedVectors {α : Type} (shuffle2 : List α → List α) (batch_size : Nat)
    (shuffled_vectors : List α) : List α :=
  if shuffled_vectors.length % batch_size ≠ 0 then
    shuffled_vectors ++
      shuffle2 (shuffled_vectors.take (batch_size - shuffled_vectors.length % batch_size))
  else shuffled_vectors

/-- `MatrixSCCLTrainer.construct_batches`: shuffle, pad to a multiple of
`batch_size`, assert divisibility (the `assert` on line 549 is modelled as
an error result), slice into consecutive batches. -/
def construct_batches {α : Type} (shuffle1 shuffle2 : List α → List α)
    (batch_size : Nat) (vectors : List α) : Except String (List (List α)) :=
  let padded := paddedVectors shuffle2 batch_size (shuffle1 vectors)
  if padded.length % batch_size = 0 then
    Except.ok (chunksOf batch_size (padded.length / batch_size) padded)
  else Except.error "AssertionError"

/-! Embedding of the early-stopping state machine shared by
`MatrixDECTrainer.train`, `MatrixSCCLTrainer.train` and
`DeepSCCLTrainer.train` (src/training.py, lines 397-409).  The source
compares snapshots with `sklearn.metrics.adjusted_rand_score(cur, prev) == 1.0`,
which holds exactly when the two label vectors induce the same partition of
the dataset; `samePartition` is that decidable test. -/

/-- Exact-agreement test between two full-dataset hard-assignment
snapshots: same length and the same co-clustering relation on every pair of
positions (the condition under which `adjusted_rand_score` returns 1.0). -/
def samePartition (a b : List Nat) : Bool :=
  (a.length == b.length) &&
    ((List.range a.length).all fun i =>
      (List.range a.length).all fun j =>
        ((a.getD i 0 == a.getD j 0) == (b.getD i 0 == b.getD j 0)))

/-- The evaluation-checkpoint loop: `prev` is `prev_labels`, `counter` is
`patience_counter`, `idx` numbers the checkpoints, and the list holds the
successive `PredictionSnapshot`s.  Returns `some idx` when the loop breaks
out of training at checkpoint `idx` (`patience_counter == self.patience`),
`none` when the snapshots are exhausted without an early stop. -/
def patienceLoop (patience : Nat) :
    Option (List Nat) → Nat → Nat → List (List Nat) → Option Nat
  | _, _, _, [] => none
  | none, counter, idx, cur :: rest => patienceLoop patience (some cur) counter (idx + 1) rest
  | some prev, counter, idx, cur :: rest =>
    if samePartition cur prev then
      if counter + 1 = patience then some idx
      else patienceLoop patience (some cur) (counter + 1) (idx + 1) rest
    else patienceLoop patience (some cur) 0 (idx + 1) rest

/-! Embedding of the per-iteration loss combination of each trainer variant.
`objective` mirrors `self.args.objective` (the clustering term is included
only when it equals "SCCL"); the contrastive and clustering loss values are
abstract inputs since the encoders are external collaborators. -/

/-- `SCCLvTrainer.train_step_virtual` (lines 78-103): `loss = eta * cl`,
then `loss += 0.5 * cluster_loss` under the objective flag. -/
def train_step_virtual_loss (eta contrast cluster : ℚ) (objective : String) : ℚ :=
  let loss := eta * contrast
  if objective = "SCCL" then loss + (1 / 2) * cluster else loss

/-- `SCCLvTrainer.train_step_explicit` (lines 106-127): `loss = eta * cl`,
then `loss += cluster_loss` under the objective flag. -/
def train_step_explicit_loss (eta contrast cluster : ℚ) (objective : String) : ℚ :=
  let loss := eta * contrast
  if objective = "SCCL" then loss + cluster else loss

/-- `MatrixDECTrainer.train_step` (lines 295-327): the contrastive term
exists only when `include_contrastive_loss`; without it `loss` is first
bound inside the objective branch, and with both switches off the name
`loss` is never bound, so `loss.backward()` raises `NameError` (modelled as
`none`). -/
def matrixDEC_train_step_loss (eta contrast cluster : ℚ)
    (include_contrastive_loss : Bool) (objective : String) : Option ℚ :=
  let loss0 : Option ℚ := if include_contrastive_loss then some (eta * contrast) else none
  if objective = "SCCL" then
    match loss0 with
    | some l => some (l + cluster)
    | none => some cluster
  else loss0

/-- `MatrixSCCLTrainer.train_step` (lines 456-504): `loss` starts as the
Python float 0.0 and only becomes a differentiable tensor when a term is
added to it — `eta`-weighted unsupervised and (when a supervised batch is
present) supervised contrastive terms, then the cluster term with
coefficient 1.  With the contrastive switch off and the objective not
"SCCL" no term is ever added, so `loss` is still a plain float and
`loss.backward()` on line 497 raises AttributeError, modelled as `none`. -/
def matrixSCCL_train_step_loss (eta ucl scl cluster : ℚ)
    (include_contrastive_loss has_supervised_batch : Bool) (objective : String) : Option ℚ :=
  let loss : ℚ := 0
  let loss :=
    if include_contrastive_loss then
      loss + eta * ucl + (if has_supervised_batch then eta * scl else 0)
    else loss
  let loss := if objective = "SCCL" then loss + cluster else loss
  if include_contrastive_loss ∨ objective = "SCCL" then some loss else none

/-- `DeepSCCLTrainer.train_step` (lines 679-730): same combination shape as
the matrix pair-supervised trainer, including the float-0.0 start — with
both switches off `loss.backward()` on line 723 raises AttributeError,
modelled as `none`. -/
def deepSCCL_train_step_loss (eta ucl scl cluster : ℚ)
    (include_contrastive_loss has_supervised_batch : Bool) (objective : String) : Option ℚ :=
  let loss : ℚ := 0
  let loss :=
    if include_contrastive_loss then
      loss + eta * ucl + (if has_supervised_batch then eta * scl else 0)
    else loss
  let loss := if objective = "SCCL" then loss + cluster else loss
  if include_contrastive_loss ∨ objective = "SCCL" then some loss else none

/-! Embedding of the `task_type` dispatch of the three `forward` methods
(src/models/Transformers.py).  The branch payloads are abstract parameters:
they are produced by the external encoder collaborators, while the claims
concern only the dispatch on the string selector. -/

/-- `SCCLBert.forward` (lines 36-59): recognizes "evaluate", "virtual",
"explicit"; anything else raises. -/
def sCCLBert_forward {α : Type} (evalOut virtOut explOut : α)
    (task_type : String) : Except String α :=
  if task_type = "evaluate" then Except.ok evalOut
  else if task_type = "virtual" then Except.ok virtOut
  else if task_type = "explicit" then Except.ok explOut
  else Except.error "TRANSFORMER ENCODING TYPE ERROR! OPTIONS: [EVALUATE, VIRTUAL, EXPLICIT]"

/-- `SCCLMatrix.forward` (lines 128-152): recognizes "evaluate" and
"virtual"; anything else raises `NotImplementedError`. -/
def sCCLMatrix_forward {α : Type} (evalOut virtOut : α)
    (task_type : String) : Except String α :=
  if task_type = "evaluate" then Except.ok evalOut
  else if task_type = "virtual" then Except.ok virtOut
  else Except.error "NotImplementedError"

/-- `SCCLBertTransE.forward` (lines 205-222): recognizes "evaluate" and
"explicit"; anything else raises `NotImplementedError`. -/
def sCCLBertTransE_forward {α : Type} (evalOut explOut : α)
    (task_type : String) : Except String α :=
  if task_type = "evaluate" then Except.ok evalOut
  else if task_type = "explicit" then Except.ok explOut
  else Except.error "NotImplementedError"

/-! Embedding of the three `get_cluster_prob` methods
(src/models/Transformers.py, lines 69-74, 155-160 and 225-230).  The three
method bodies are transcribed separately, one per class.  Tensor arithmetic
is modelled over ℝ; `numerator ** power` with the float exponent
`(alpha + 1) / 2` is real exponentiation (`Real.rpow`). -/

/-- `SCCLBert.get_cluster_prob` (lines 69-74). -/
noncomputable def sCCLBert_get_cluster_prob (N K D : ℕ)
    (embeddings : Fin N → Fin D → ℝ) (cluster_centers : Fin K → Fin D → ℝ)
    (alpha : ℝ) : Fin N → Fin K → ℝ :=
  fun i k =>
    (1 / (1 + (∑ j, (embeddings i j - cluster_centers k j) ^ 2) / alpha)) ^ ((alpha + 1) / 2)
      / ∑ m, (1 / (1 + (∑ j, (embeddings i j - cluster_centers m j) ^ 2) / alpha)) ^ ((alpha + 1) / 2)

/-- `SCCLMatrix.get_cluster_prob` (lines 155-160). -/
noncomputable def sCCLMatrix_get_cluster_prob (N K D : ℕ)
    (embeddings : Fin N → Fin D → ℝ) (cluster_centers : Fin K → Fin D → ℝ)
    (alpha : ℝ) : Fin N → Fin K → ℝ :=
  fun i k =>
    (1 / (1 + (∑ j, (embeddings i j - cluster_centers k j) ^ 2) / alpha)) ^ ((alpha + 1) / 2)
      / ∑ m, (1 / (1 + (∑ j, (embeddings i j - cluster_centers m j) ^ 2) / alpha)) ^ ((alpha + 1) / 2)

/-- `SCCLBertTransE.get_cluster_prob` (lines 225-230). -/
noncomputable def sCCLBertTransE_get_cluster_prob (N K D : ℕ)
    (embeddings : Fin N → Fin D → ℝ) (cluster_centers : Fin K → Fin D → ℝ)
    (alpha : ℝ) : Fin N → Fin K → ℝ :=
  fun i k =>
    (1 / (1 + (∑ j, (embeddings i j - cluster_centers k j) ^ 2) / alpha)) ^ ((alpha + 1) / 2)
      / ∑ m, (1 / (1 + (∑ j, (embeddings i j - cluster_centers m j) ^ 2) / alpha)) ^ ((alpha + 1) / 2)

/-- The spec's words for the assignment engine (spec section 4.1), stated
independently of the source for the refinement comparison of claim C1:
squared Euclidean distance, Student's-t kernel
`q_ik = (1 + d_ik^2 / alpha) ^ (-(alpha + 1) / 2)`, rows divided by their
own sums. -/
noncomputable def assign_spec (N K D : ℕ)
    (embeddings : Fin N → Fin D → ℝ) (centers : Fin K → Fin D → ℝ)
    (alpha : ℝ) : Fin N → Fin K → ℝ :=
  fun i k =>
    (1 + (∑ j, (embeddings i j - centers k j) ^ 2) / alpha) ^ (-((alpha + 1) / 2))
      / ∑ m, (1 + (∑ j, (embeddings i j - centers m j) ^ 2) / alpha) ^ (-((alpha + 1) / 2))

end SCCL

deriving instance DecidableEq for Except


namespace SCCL

/-! Theorems for the claims.  Each claim of the frozen list gets exactly one
theorem below (plus a witness when the theorem carries hypotheses, or a
counterexample when the claim as stated fails on the code). -/

/-- Claim C1: `get_cluster_prob` computes the Student's-t kernel
`q_ik = (1 + d_ik^2 / alpha) ^ (-(alpha + 1) / 2)` over squared Euclidean
distances and returns each row divided by its own sum.  Proved as the
equality of the transcribed method body with the spec-side formula
`assign_spec`, for every positive `alpha` (the hyperparameter defaults to
1.0 and is a positive temperature). -/
theorem c1_get_cluster_prob_is_normalized_student_t (N K D : ℕ)
    (E : Fin N → Fin D → ℝ) (C : Fin K → Fin D → ℝ) (alpha : ℝ)
    (halpha : 0 < alpha) :
    sCCLBert_get_cluster_prob N K D E C alpha = assign_spec N K D E C alpha := by
  funext i k
  have hbase : ∀ m : Fin K, (0 : ℝ) < 1 + (∑ j, (E i j - C m j) ^ 2) / alpha := by
    intro m
    have hnn : (0 : ℝ) ≤ (∑ j, (E i j - C m j) ^ 2) / alpha :=
      div_nonneg (Finset.sum_nonneg fun j _ => sq_nonneg _) halpha.le
    linarith
  have hnum : ∀ m : Fin K,
      (1 / (1 + (∑ j, (E i j - C m j) ^ 2) / alpha)) ^ ((alpha + 1) / 2)
        = (1 + (∑ j, (E i j - C m j) ^ 2) / alpha) ^ (-((alpha + 1) / 2)) := by
    intro m
    rw [one_div, Real.inv_rpow (hbase m).le, ← Real.rpow_neg (hbase m).le]
  simp only [sCCLBert_get_cluster_prob, assign_spec]
  rw [hnum k]
  congr 1
  exact Finset.sum_congr rfl fun m _ => hnum m

/-- Claim C1 witness: the theorem applied at N = K = D = 1, zero embeddings
and centers, alpha = 1. -/
theorem c1_witness :
    sCCLBert_get_cluster_prob 1 1 1 (fun _ _ => 0) (fun _ _ => 0) 1
      = assign_spec 1 1 1 (fun _ _ => 0) (fun _ _ => 0) 1 :=
  c1_get_cluster_prob_is_normalized_student_t 1 1 1 (fun _ _ => 0) (fun _ _ => 0) 1 one_pos

/-- Claim C2: for K > 0 (and positive alpha), every row of
`get_cluster_prob` sums to exactly 1 and every entry is strictly positive;
the normalizing row sum is strictly positive, so the division never divides
by zero. -/
theorem c2_rows_sum_to_one_and_entries_positive (N K D : ℕ)
    (E : Fin N → Fin D → ℝ) (C : Fin K → Fin D → ℝ) (alpha : ℝ)
    (halpha : 0 < alpha) (hK : 0 < K) :
    (∀ i, ∑ k, sCCLBert_get_cluster_prob N K D E C alpha i k = 1)
    ∧ (∀ i k, 0 < sCCLBert_get_cluster_prob N K D E C alpha i k) := by
  have hnum : ∀ (i : Fin N) (m : Fin K),
      0 < (1 / (1 + (∑ j, (E i j - C m j) ^ 2) / alpha)) ^ ((alpha + 1) / 2) := by
    intro i m
    apply Real.rpow_pos_of_pos
    apply div_pos one_pos
    have hnn : (0 : ℝ) ≤ (∑ j, (E i j - C m j) ^ 2) / alpha :=
      div_nonneg (Finset.sum_nonneg fun j _ => sq_nonneg _) halpha.le
    linarith
  haveI : Nonempty (Fin K) := Fin.pos_iff_nonempty.mp hK
  have hS : ∀ i : Fin N,
      0 < ∑ m, (1 / (1 + (∑ j, (E i j - C m j) ^ 2) / alpha)) ^ ((alpha + 1) / 2) :=
    fun i => Finset.sum_pos (fun m _ => hnum i m) Finset.univ_nonempty
  constructor
  · intro i
    simp only [sCCLBert_get_cluster_prob]
    rw [← Finset.sum_div]
    exact div_self (hS i).ne'
  · intro i k
    exact div_pos (hnum i k) (hS i)

/-- Claim C2 witness: the theorem applied at N = K = D = 1, zero embeddings
and centers, alpha = 1. -/
theorem c2_witness :
    (∀ i, ∑ k, sCCLBert_get_cluster_prob 1 1 1 (fun _ _ => 0) (fun _ _ => 0) 1 i k = 1)
    ∧ (∀ i k, 0 < sCCLBert_get_cluster_prob 1 1 1 (fun _ _ => 0) (fun _ _ => 0) 1 i k) :=
  c2_rows_sum_to_one_and_entries_positive 1 1 1 (fun _ _ => 0) (fun _ _ => 0) 1
    one_pos Nat.one_pos

/-- Claim C3 (code bug): the repair heuristic is supposed to hand each
empty cluster the farthest eligible point and to move one count from the
donor cluster to the repaired one.  The code instead argsorts the
min-distance list that was built in the random visiting order and uses the
resulting positions as raw point indices, and it decrements the count of
`labels[p]` after `labels[p]` has already been overwritten with the
repaired cluster.  Concretely: dataset {[1], [10]}, centers {[0], [100]}
(cluster 1 empty), visiting order [1, 0].  Point 1 ([10], squared distance
100 to its nearest center) is strictly farther than point 0 ([1], squared
distance 1), yet the code reseeds cluster 1 with point 0's features [1],
and the donor cluster 0 keeps count 2 inside the loop. -/
theorem c3_repair_picks_wrong_point_at_failing_input :
    find_empty_clusters [[(1 : ℤ)], [10]] [[0], [100]] [1, 0] id
        = Except.ok ⟨[[0], [1]], [1, 0], true, []⟩
      ∧ rowMin (distRow [[(0 : ℤ)], [100]] [1]) < rowMin (distRow [[(0 : ℤ)], [100]] [10])
      ∧ repairStep [[(1 : ℤ)], [10]] [0, 1] 1 ⟨[[0], [100]], [0, 0], [2, 0], 0⟩
        = Except.ok ⟨[[0], [1]], [1, 0], [2, 0], 1⟩ := by decide

/-- Claim C4 (code bug): because the count bookkeeping never decrements the
donor cluster (see C3), the singleton-protection check reads stale counts
and the repair pass can empty a cluster even though eligible alternative
points exist.  Concretely: dataset {[30], [-40], [100], [101]}, centers
{[0], [100], [1000], [2000]}; clusters 2 and 3 are empty, cluster 0 holds
exactly the two farthest points.  The pass hands both of cluster 0's
members to the empty clusters — point [101] of cluster 1 was an eligible
alternative — and the final recount reports cluster 0 newly empty. -/
theorem c4_repair_creates_new_empty_cluster_at_failing_input :
    find_empty_clusters [[(30 : ℤ)], [-40], [100], [101]]
        [[0], [100], [1000], [2000]] [0, 1, 2, 3] id
      = Except.ok ⟨[[0], [100], [-40], [30]], [3, 2, 1, 1], true, [0]⟩ := by decide

/-- Claim C5 counterexample: in `SCCLvTrainer.train_step_virtual` the
clustering term enters with coefficient 0.5, not 1: at
eta = contrastive = cluster = 1 with the SCCL objective the loss is 3/2,
not eta * contrastive + cluster = 2. -/
theorem c5_counterexample :
    train_step_virtual_loss 1 1 1 "SCCL" ≠ 1 * 1 + 1 := by
  norm_num [train_step_virtual_loss]

/-- Claim C5 as amended: the trainer variants combine
`loss = eta * contrastive + c * cluster` with variant-specific coefficient
and inclusion rules — c = 1/2 in the text trainer's virtual step, c = 1 in
its explicit step and in all matrix trainers; the matrix trainers include
the contrastive terms only when configured (the pair-supervised trainers
adding an eta-weighted supervised term), the cluster term only under the
"SCCL" objective; and with both switches off no variant backpropagates a
loss: the matrix DEC trainer leaves `loss` unbound (NameError) and the
pair-supervised trainers leave it the plain float 0.0, on which
`loss.backward()` raises (AttributeError) — both modelled as `none`. -/
theorem c5_amended_loss_combinations (eta ucl scl cluster : ℚ)
    (objective : String) (inc sup : Bool) :
    train_step_virtual_loss eta ucl cluster objective
        = eta * ucl + (if objective = "SCCL" then (1 / 2) * cluster else 0)
    ∧ train_step_explicit_loss eta ucl cluster objective
        = eta * ucl + (if objective = "SCCL" then cluster else 0)
    ∧ matrixDEC_train_step_loss eta ucl cluster inc objective
        = (if inc then
            some (eta * ucl + (if objective = "SCCL" then cluster else 0))
          else if objective = "SCCL" then some cluster else none)
    ∧ matrixSCCL_train_step_loss eta ucl scl cluster inc sup objective
        = (if inc ∨ objective = "SCCL" then
            some ((if inc then eta * ucl + (if sup then eta * scl else 0) else 0)
              + (if objective = "SCCL" then cluster else 0))
          else none)
    ∧ deepSCCL_train_step_loss eta ucl scl cluster inc sup objective
        = (if inc ∨ objective = "SCCL" then
            some ((if inc then eta * ucl + (if sup then eta * scl else 0) else 0)
              + (if objective = "SCCL" then cluster else 0))
          else none) := by
  refine ⟨?_, ?_, ?_, ?_, ?_⟩
  · simp only [train_step_virtual_loss]
    split_ifs <;> ring
  · simp only [train_step_explicit_loss]
    split_ifs <;> ring
  · simp only [matrixDEC_train_step_loss]
    cases inc <;> split_ifs <;> simp
  · cases inc <;> cases sup <;>
      by_cases hobj : objective = "SCCL" <;>
        simp [matrixSCCL_train_step_loss, hobj] <;> ring
  · cases inc <;> cases sup <;>
      by_cases hobj : objective = "SCCL" <;>
        simp [deepSCCL_train_step_loss, hobj] <;> ring

/-- Claim C8: when the hard nearest-center assignment leaves no cluster
empty, `find_empty_clusters` returns without an exception and without
touching the cluster centers — the write-back of line 291 sits inside the
`len(empty_clusters) > 0` branch. -/
theorem c8_no_empty_clusters_short_circuits {α : Type} [LinearOrderedCommRing α]
    (dataset centers : List (List α)) (perm1 : List Nat)
    (shufEmpty : List Nat → List Nat) (hK : 0 < centers.length)
    (hempty : emptyClustersOf dataset centers = []) :
    find_empty_clusters dataset centers perm1 shufEmpty
      = Except.ok ⟨centers, hardLabels dataset centers, false, []⟩ := by
  have h1 : ¬(centers.length = 0 ∧ dataset.length ≠ 0) :=
    fun h => absurd h.1 (Nat.pos_iff_ne_zero.mp hK)
  have h2 : (emptyClustersOf dataset centers).isEmpty = true := by
    rw [hempty]; rfl
  unfold find_empty_clusters
  rw [if_neg h1, if_pos h2]

/-- Claim C8 witness: dataset {[0], [5]} and centers {[0], [5]} assign one
point to each cluster, so the call returns the centers unchanged. -/
theorem c8_witness :
    find_empty_clusters [[(0 : ℤ)], [5]] [[0], [5]] [0, 1] id
      = Except.ok ⟨[[0], [5]], hardLabels [[(0 : ℤ)], [5]] [[0], [5]], false, []⟩ :=
  c8_no_empty_clusters_short_circuits [[(0 : ℤ)], [5]] [[0], [5]] [0, 1] id
    (by decide) (by decide)

/-- Claim C9: each of the three `forward` methods raises immediately on a
`task_type` outside that model's recognized set, rather than returning a
value: SCCLBert recognizes evaluate/virtual/explicit, SCCLMatrix
evaluate/virtual, SCCLBertTransE evaluate/explicit. -/
theorem c9_unrecognized_task_type_raises {α : Type} (evalOut virtOut explOut : α)
    (t : String) :
    (t ≠ "evaluate" → t ≠ "virtual" → t ≠ "explicit" →
      sCCLBert_forward evalOut virtOut explOut t
        = Except.error "TRANSFORMER ENCODING TYPE ERROR! OPTIONS: [EVALUATE, VIRTUAL, EXPLICIT]")
    ∧ (t ≠ "evaluate" → t ≠ "virtual" →
      sCCLMatrix_forward evalOut virtOut t = Except.error "NotImplementedError")
    ∧ (t ≠ "evaluate" → t ≠ "explicit" →
      sCCLBertTransE_forward evalOut explOut t = Except.error "NotImplementedError") := by
  refine ⟨fun he hv hx => ?_, fun he hv => ?_, fun he hx => ?_⟩
  · simp [sCCLBert_forward, he, hv, hx]
  · simp [sCCLMatrix_forward, he, hv]
  · simp [sCCLBertTransE_forward, he, hx]

/-- Claim C9 witness: the unrecognized selector "contrastive" makes all
three forwards raise. -/
theorem c9_witness :
    sCCLBert_forward 0 1 2 "contrastive"
        = Except.error "TRANSFORMER ENCODING TYPE ERROR! OPTIONS: [EVALUATE, VIRTUAL, EXPLICIT]"
    ∧ sCCLMatrix_forward 0 1 "contrastive" = Except.error "NotImplementedError"
    ∧ sCCLBertTransE_forward 0 2 "contrastive" = Except.error "NotImplementedError" :=
  ⟨(c9_unrecognized_task_type_raises 0 1 2 "contrastive").1
      (by decide) (by decide) (by decide),
    (c9_unrecognized_task_type_raises 0 1 2 "contrastive").2.1 (by decide) (by decide),
    (c9_unrecognized_task_type_raises 0 1 2 "contrastive").2.2 (by decide) (by decide)⟩

/-! Helper lemmas about the early-stopping loop. -/

theorem samePartition_refl (s : List Nat) : samePartition s s = true := by
  simp [samePartition, List.all_eq_true]

theorem patienceLoop_step_init (p c idx : Nat) (cur : List Nat)
    (rest : List (List Nat)) :
    patienceLoop p none c idx (cur :: rest) = patienceLoop p (some cur) c (idx + 1) rest := by
  simp only [patienceLoop]

theorem patienceLoop_step_agree (p c idx : Nat) (prev cur : List Nat)
    (rest : List (List Nat)) (hagree : samePartition cur prev = true)
    (hne : c + 1 ≠ p) :
    patienceLoop p (some prev) c idx (cur :: rest)
      = patienceLoop p (some cur) (c + 1) (idx + 1) rest := by
  simp only [patienceLoop]
  rw [if_pos hagree, if_neg hne]

theorem patienceLoop_step_halt (p c idx : Nat) (prev cur : List Nat)
    (rest : List (List Nat)) (hagree : samePartition cur prev = true)
    (heq : c + 1 = p) :
    patienceLoop p (some prev) c idx (cur :: rest) = some idx := by
  simp only [patienceLoop]
  rw [if_pos hagree, if_pos heq]

theorem patienceLoop_step_differ (p c idx : Nat) (prev cur : List Nat)
    (rest : List (List Nat)) (h : samePartition cur prev = false) :
    patienceLoop p (some prev) c idx (cur :: rest)
      = patienceLoop p (some cur) 0 (idx + 1) rest := by
  simp only [patienceLoop]
  rw [if_neg (by simp [h])]

theorem patienceLoop_replicate_agree (p c a idx : Nat) (s : List Nat)
    (L : List (List Nat)) (h : c + a < p) :
    patienceLoop p (some s) c idx (List.replicate a s ++ L)
      = patienceLoop p (some s) (c + a) (idx + a) L := by
  induction a generalizing c idx with
  | zero => simp
  | succ n ih =>
    rw [List.replicate_succ, List.cons_append]
    rw [patienceLoop_step_agree p c idx s s _ (samePartition_refl s) (by omega)]
    rw [ih (c + 1) (idx + 1) (by omega)]
    have e1 : c + 1 + n = c + (n + 1) := by omega
    have e2 : idx + 1 + n = idx + (n + 1) := by omega
    rw [e1, e2]

theorem patienceLoop_replicate_halts (p c idx m : Nat) (s : List Nat)
    (hc : c < p) (hm : p - c ≤ m) :
    patienceLoop p (some s) c idx (List.replicate m s) = some (idx + (p - c - 1)) := by
  have hsplit : List.replicate m s
      = List.replicate (p - c - 1) s ++ List.replicate (m - (p - c - 1)) s := by
    rw [← List.replicate_add]
    congr 1
    omega
  rw [hsplit, patienceLoop_replicate_agree p c (p - c - 1) idx s _ (by omega)]
  have hm1 : m - (p - c - 1) = (m - (p - c)) + 1 := by omega
  rw [hm1, List.replicate_succ]
  exact patienceLoop_step_halt p _ _ s s _ (samePartition_refl s) (by omega)

/-- Claim C6: at every checkpoint after the first, the patience counter
increments exactly when the snapshot agrees with the previous one (by the
exact-agreement test under which `adjusted_rand_score` returns 1.0) and
resets to 0 otherwise; the loop halts exactly at the checkpoint where the
counter reaches the threshold.  With checkpoint 0 initializing
`prev_labels`, a run of `patience + 1` identical snapshots halts exactly at
checkpoint index `patience`; inserting one differing snapshot `t` after
`a + 1` identical ones resets the counter, so the halt moves to checkpoint
`a + 2 + patience`. -/
theorem c6_patience_halts_and_resets (p a : Nat) (s t : List Nat)
    (hp : 1 ≤ p) (ha : a < p)
    (hts : samePartition t s = false) (hst : samePartition s t = false) :
    patienceLoop p none 0 0 (List.replicate (p + 1) s) = some p
    ∧ patienceLoop p none 0 0
        (List.replicate (a + 1) s ++ t :: List.replicate (p + 1) s)
      = some (a + 2 + p) := by
  constructor
  · rw [List.replicate_succ, patienceLoop_step_init]
    rw [patienceLoop_replicate_halts p 0 1 p s (by omega) (by omega)]
    congr 1
    omega
  · rw [List.replicate_succ, List.cons_append, patienceLoop_step_init]
    rw [patienceLoop_replicate_agree p 0 a 1 s _ (by omega)]
    rw [patienceLoop_step_differ p (0 + a) (1 + a) s t _ hts]
    rw [List.replicate_succ, patienceLoop_step_differ p 0 (1 + a + 1) t s _ hst]
    rw [patienceLoop_replicate_halts p 0 (1 + a + 1 + 1) p s (by omega) (by omega)]
    congr 1
    omega

/-- Claim C6 witness: patience 2; three identical snapshots halt at
checkpoint 2; with one differing snapshot after two identical ones the halt
moves to checkpoint 5. -/
theorem c6_witness :
    patienceLoop 2 none 0 0 (List.replicate 3 [0, 0]) = some 2
    ∧ patienceLoop 2 none 0 0
        (List.replicate 2 [0, 0] ++ [0, 1] :: List.replicate 3 [0, 0]) = some 5 :=
  c6_patience_halts_and_resets 2 1 [0, 0] [0, 1] (by decide) (by decide)
    (by decide) (by decide)

/-! Helper lemmas about batch slicing and ceiling division. -/

theorem chunksOf_length {α : Type} (B : Nat) :
    ∀ (n : Nat) (l : List α), (chunksOf B n l).length = n := by
  intro n
  induction n with
  | zero => intro l; rfl
  | succ k ih => intro l; simp [chunksOf, ih]

theorem chunksOf_mem_length {α : Type} (B : Nat) (hB : 0 < B) :
    ∀ (n : Nat) (l : List α), l.length = n * B →
      ∀ b ∈ chunksOf B n l, b.length = B := by
  intro n
  induction n with
  | zero => intro l _ b hb; simp [chunksOf] at hb
  | succ k ih =>
    intro l hl b hb
    rw [Nat.succ_mul] at hl
    rcases List.mem_cons.mp hb with h | h
    · subst h
      rw [List.length_take]
      omega
    · exact ih (l.drop B) (by rw [List.length_drop]; omega) b h

theorem chunksOf_flatten {α : Type} (B : Nat) :
    ∀ (n : Nat) (l : List α), (chunksOf B n l).flatten = l.take (n * B) := by
  intro n
  induction n with
  | zero => intro l; simp [chunksOf]
  | succ k ih =>
    intro l
    rw [chunksOf]
    simp only [List.flatten_cons]
    rw [ih (l.drop B), Nat.succ_mul, Nat.add_comm (k * B) B, List.take_add]

theorem ceilDiv_of_mod_eq_zero (M B : Nat) (hB : 0 < B) (h : M % B = 0) :
    (M + B - 1) / B = M / B := by
  have hdm := Nat.div_add_mod M B
  rw [show M + B - 1 = (B - 1) + B * (M / B) from by omega]
  rw [Nat.add_mul_div_left _ _ hB, Nat.div_eq_of_lt (show B - 1 < B from by omega)]
  omega

theorem ceilDiv_of_mod_ne_zero (M B : Nat) (hB : 0 < B) (h : M % B ≠ 0) :
    (M + B - 1) / B = M / B + 1 := by
  have hdm := Nat.div_add_mod M B
  have hlt : M % B < B := Nat.mod_lt _ hB
  have hsplit : B * (M / B + 1) = B * (M / B) + B := by ring
  rw [show M + B - 1 = (M % B - 1) + B * (M / B + 1) from by omega]
  rw [Nat.add_mul_div_left _ _ hB, Nat.div_eq_of_lt (show M % B - 1 < B from by omega)]
  omega

/-- Claim C7 counterexample: with one input vector and batch size 3 the
padding prefix `shuffled[:2]` holds a single element (Python slicing
truncates), the padded list has 2 elements, and the size assertion fails —
so `construct_batches` does not return `ceil(M/B)` full batches for every
M > 0 and B > 0.  With a one-element list every shuffle is the identity,
so the modelled shuffles are exactly what the program computes. -/
theorem c7_counterexample :
    construct_batches id id 3 [(0 : Nat)] = Except.error "AssertionError" := by decide

/-- Claim C7 as amended: for M > 0 and B > 0, and provided the padding
amount `B - M % B` does not exceed M whenever `M % B ≠ 0` (otherwise the
internal size assertion fails, see the counterexample), `construct_batches`
returns exactly `ceil(M/B)` batches, each of exactly `B` vectors, covering
every input vector at least once. -/
theorem c7_batches_cover_with_exact_sizes {α : Type}
    (shuffle1 shuffle2 : List α → List α) (B : Nat) (vectors : List α)
    (hB : 0 < B) (hM : 0 < vectors.length)
    (h1 : List.Perm (shuffle1 vectors) vectors)
    (h2 : ∀ v : List α, List.Perm (shuffle2 v) v)
    (hpad : vectors.length % B = 0 ∨ B - vectors.length % B ≤ vectors.length) :
    ∃ batches, construct_batches shuffle1 shuffle2 B vectors = Except.ok batches
      ∧ batches.length = (vectors.length + B - 1) / B
      ∧ (∀ b ∈ batches, b.length = B)
      ∧ (∀ x ∈ vectors, ∃ b ∈ batches, x ∈ b) := by
  have hslen : (shuffle1 vectors).length = vectors.length := h1.length_eq
  have hdm := Nat.div_add_mod vectors.length B
  by_cases hmod : vectors.length % B = 0
  · have hpadded : paddedVectors shuffle2 B (shuffle1 vectors) = shuffle1 vectors := by
      unfold paddedVectors
      rw [if_neg (by simp [hslen, hmod])]
    have hql : (shuffle1 vectors).length = (vectors.length / B) * B := by
      have hcomm : (vectors.length / B) * B = B * (vectors.length / B) := Nat.mul_comm _ _
      omega
    refine ⟨chunksOf B (vectors.length / B) (shuffle1 vectors), ?_, ?_, ?_, ?_⟩
    · simp only [construct_batches, hpadded]
      rw [if_pos (by rw [hslen]; exact hmod)]
      rw [hslen]
    · rw [chunksOf_length, ceilDiv_of_mod_eq_zero _ _ hB hmod]
    · exact chunksOf_mem_length B hB (vectors.length / B) (shuffle1 vectors) hql
    · intro x hx
      have hxs : x ∈ shuffle1 vectors := h1.mem_iff.mpr hx
      have hj : x ∈ (chunksOf B (vectors.length / B) (shuffle1 vectors)).flatten := by
        rw [chunksOf_flatten, ← hql, List.take_length]
        exact hxs
      rcases List.mem_flatten.mp hj with ⟨b, hb, hxb⟩
      exact ⟨b, hb, hxb⟩
  · have hle : B - vectors.length % B ≤ vectors.length := hpad.resolve_left hmod
    have hmlt : vectors.length % B < B := Nat.mod_lt _ hB
    have hsuffix : (shuffle2 ((shuffle1 vectors).take (B - (shuffle1 vectors).length % B))).length
        = B - vectors.length % B := by
      rw [(h2 _).length_eq, List.length_take, hslen]
      omega
    have hpadded : paddedVectors shuffle2 B (shuffle1 vectors)
        = shuffle1 vectors
          ++ shuffle2 ((shuffle1 vectors).take (B - (shuffle1 vectors).length % B)) := by
      unfold paddedVectors
      rw [if_pos (by simp [hslen, hmod])]
    have hplen : (paddedVectors shuffle2 B (shuffle1 vectors)).length
        = (vectors.length / B + 1) * B := by
      rw [hpadded, List.length_append, hsuffix, hslen]
      have hexp : (vectors.length / B + 1) * B = B * (vectors.length / B) + B := by ring
      omega
    refine ⟨chunksOf B (vectors.length / B + 1) (paddedVectors shuffle2 B (shuffle1 vectors)),
      ?_, ?_, ?_, ?_⟩
    · simp only [construct_batches]
      rw [if_pos (by rw [hplen]; exact Nat.mul_mod_left _ _)]
      rw [hplen, Nat.mul_div_cancel _ hB]
    · rw [chunksOf_length, ceilDiv_of_mod_ne_zero _ _ hB hmod]
    · exact chunksOf_mem_length B hB (vectors.length / B + 1)
        (paddedVectors shuffle2 B (shuffle1 vectors)) hplen
    · intro x hx
      have hxs : x ∈ shuffle1 vectors := h1.mem_iff.mpr hx
      have hxp : x ∈ paddedVectors shuffle2 B (shuffle1 vectors) := by
        rw [hpadded]
        exact List.mem_append_left _ hxs
      have hj : x ∈ (chunksOf B (vectors.length / B + 1)
          (paddedVectors shuffle2 B (shuffle1 vectors))).flatten := by
        rw [chunksOf_flatten, ← hplen, List.take_length]
        exact hxp
      rcases List.mem_flatten.mp hj with ⟨b, hb, hxb⟩
      exact ⟨b, hb, hxb⟩

/-- Claim C7 witness: three vectors with batch size 2 (padding amount 1)
give two full batches covering all inputs. -/
theorem c7_witness :
    ∃ batches, construct_batches id id 2 [0, 1, 2] = Except.ok batches
      ∧ batches.length = (List.length [0, 1, 2] + 2 - 1) / 2
      ∧ (∀ b ∈ batches, b.length = 2)
      ∧ (∀ x ∈ [0, 1, 2], ∃ b ∈ batches, x ∈ b) :=
  c7_batches_cover_with_exact_sizes id id 2 [0, 1, 2] (by decide) (by decide)
    (List.Perm.refl _) (fun v => List.Perm.refl v) (Or.inr (by decide))

/-- Claim C10: the three transcribed `get_cluster_prob` method bodies are
extensionally equal — on every embeddings matrix, center matrix and alpha
they return identical output. -/
theorem c10_three_get_cluster_prob_agree :
    ∀ (N K D : ℕ) (E : Fin N → Fin D → ℝ) (C : Fin K → Fin D → ℝ) (alpha : ℝ),
      sCCLBert_get_cluster_prob N K D E C alpha = sCCLMatrix_get_cluster_prob N K D E C alpha
      ∧ sCCLMatrix_get_cluster_prob N K D E C alpha
        = sCCLBertTransE_get_cluster_prob N K D E C alpha :=
  fun _ _ _ _ _ _ => ⟨rfl, rfl⟩

end SCCL
